import Mathlib

/-!
Shallow embedding of the Rymflux core (source contract, rule-driven and
archive sources, registry, search aggregator, detail-merge stage) from
`src/rymflux`.  Network I/O is modelled by passing the fetch outcome
(`FetchResult`) into the functions that the Python code performs the
request in; HTML selector application is modelled by pages that carry the
per-selector results (`SearchContainer`, `DetailsPage`); URL resolution
(`httpx.URL.join`) is abstracted as a function parameter `urljoin`.
Everything else is translated line by line from the Python source.
-/

namespace Rymflux

/-- Python code-point lexicographic `<=` on strings, as used by `list.sort`
with a string key (`rymflux/core/sources.py`, `chapters.sort(key=lambda c:
c.title)`). -/
def charsLe : List Char → List Char → Bool
  | [], _ => true
  | _ :: _, [] => false
  | c :: cs, d :: ds =>
    if c.toNat < d.toNat then true
    else if d.toNat < c.toNat then false
    else charsLe cs ds

/-- Lexicographic `<=` on `String`, by code points (Python `str` order). -/
def titleLe (a b : String) : Bool := charsLe a.data b.data

/-- Whether `pre` is a prefix of `l` (char lists). -/
def isPrefixChars : List Char → List Char → Bool
  | [], _ => true
  | _ :: _, [] => false
  | c :: cs, d :: ds => c == d && isPrefixChars cs ds

/-- Python `sub in s` substring containment, on char lists. -/
def containsChars (hay sub : List Char) : Bool :=
  match hay with
  | [] => sub.isEmpty
  | _ :: t => isPrefixChars sub hay || containsChars t sub

/-- Python `sub in s` on `String`. -/
def pyContains (s sub : String) : Bool := containsChars s.data sub.data

/-- Python `s.endswith(suf)` on `String`. -/
def pyEndsWith (s suf : String) : Bool := isPrefixChars suf.data.reverse s.data.reverse

/-- Python `str.strip()` (whitespace trim on both ends). -/
def pyStrip (s : String) : String :=
  ⟨((s.data.dropWhile Char.isWhitespace).reverse.dropWhile Char.isWhitespace).reverse⟩

/-- Characters after the last `/`: Python `s.split('/')[-1]` (`sources.py`
line 195). -/
def lastSegment (s : List Char) : List Char :=
  s.foldl (fun acc c => if c == '/' then [] else acc ++ [c]) []

/-! ## Data model (`rymflux/core/models.py`) -/

/-- `models.AudioItem`: a search result. -/
structure AudioItem where
  title : String
  source_name : String
  url : String
  deriving DecidableEq

/-- `models.Chapter`: one chapter of an audiobook. -/
structure Chapter where
  title : String
  url : String
  deriving DecidableEq

/-- `models.Audiobook`: a full audiobook (extends `AudioItem` fields). -/
structure Audiobook where
  title : String
  source_name : String
  url : String
  author : Option String := none
  description : Option String := none
  cover_image_url : Option String := none
  chapters : List Chapter := []
  deriving DecidableEq

/-- Outcome of one HTTP GET: either a transport failure
(`httpx.RequestError`: DNS, connect, timeout, ...) or a response with a
status code and a (parsed) body.  `raise_for_status` raises
`httpx.HTTPStatusError` on a non-2xx status, and that exception class is a
sibling of `httpx.RequestError`, not a subclass. -/
inductive FetchResult (α : Type) where
  | requestError
  | response (status : Nat) (body : α)
  deriving DecidableEq

/-- Status codes for which `response.raise_for_status()` does not raise. -/
def is2xx (status : Nat) : Bool := 200 ≤ status && status < 300

/-! ## Aggregator (`rymflux/gui/workers.py`, `SearchWorker._search_all`)

`asyncio.gather(*tasks, return_exceptions=True)` returns one outcome per
source, in task-submission (= registration) order, with a raised exception
delivered as a value.  An outcome is modelled as `Except String (List
AudioItem)`. -/

/-- Loop body of `SearchWorker._search_all` lines 39-45: extend with list
results, skip (log) exception results. -/
def collectStep (acc : List AudioItem) (r : Except String (List AudioItem)) :
    List AudioItem :=
  match r with
  | .ok l => acc ++ l
  | .error _ => acc

/-- `SearchWorker._search_all`, given the per-source outcomes that
`asyncio.gather` delivers in registration order. -/
def SearchWorker.search_all (outcomes : List (Except String (List AudioItem))) :
    List AudioItem :=
  outcomes.foldl collectStep []

/-! ## Detail-merge stage (`rymflux/gui/workers.py`,
`DetailsWorker._fetch_and_merge`) -/

/-- Shape of the Google Books `volumeInfo` record used by the merge:
`authors` (defaulted to `[]` by `.get("authors", [])`), `description`
(`none` when the key is absent), and `imageLinks.thumbnail` (`none` when
either key is absent). -/
structure VolumeInfo where
  authors : List String := []
  description : Option String := none
  thumbnail : Option String := none
  deriving DecidableEq

/-- Python `x or y` for an optional string `x` (falsy when `None` or `""`). -/
def pyOrOpt (v : Option String) (fallback : Option String) : Option String :=
  match v with
  | some s => if s = "" then fallback else some s
  | none => fallback

/-- `DetailsWorker._fetch_and_merge` lines 97-110: the merge of the scraped
audiobook with the optional Google Books metadata.  The two concurrent
fetches are modelled by their outcomes (`none` = failed / absent). -/
def DetailsWorker.fetch_and_merge (scraped : Option Audiobook)
    (google_metadata : Option VolumeInfo) : Option Audiobook :=
  match scraped with
  | none => none
  | some book =>
    match google_metadata with
    | none => some book
    | some g =>
      some { book with
        author :=
          (let joined := String.intercalate ", " g.authors
           if joined = "" then book.author else some joined),
        description :=
          (match g.description with
           | some d => some d
           | none => book.description),
        cover_image_url := pyOrOpt g.thumbnail book.cover_image_url }

/-! ## Rule-driven source (`rymflux/core/sources.py`, `CustomSource`) -/

/-- A selected HTML element: its attribute map and its
`get_text(strip=True)` text. -/
structure Element where
  attrs : List (String × String) := []
  text : String := ""
  deriving DecidableEq

/-- Result of applying the search rule selectors inside one
`item_container_selector` match: `select_one(title_selector)` and
`select_one(url_selector)` (each `none` when the selector matched
nothing). -/
structure SearchContainer where
  titleEl : Option Element := none
  urlEl : Option Element := none
  deriving DecidableEq

/-- A parsed search-results page: the list of
`item_container_selector` matches, in document order. -/
structure SearchPage where
  containers : List SearchContainer := []
  deriving DecidableEq

/-- `CustomSource.search` loop, lines 81-95: one `AudioItem` per container
whose title and URL elements are present and whose URL element has an
`href`; other containers are skipped. -/
def searchItems (name : String) (urljoin : String → String) :
    List SearchContainer → List AudioItem :=
  List.filterMap fun c =>
    match c.titleEl, c.urlEl with
    | some t, some u =>
      (u.attrs.lookup "href").map fun href =>
        { title := t.text, source_name := name, url := urljoin href }
    | _, _ => none

/-- `CustomSource.search`, lines 60-95.  The `try` block catches only
`httpx.RequestError`; `raise_for_status` raises `httpx.HTTPStatusError`
(not a `RequestError`) on a non-2xx response, which therefore escapes. -/
def CustomSource.search (name : String) (urljoin : String → String)
    (fetch : FetchResult SearchPage) : Except String (List AudioItem) :=
  match fetch with
  | .requestError => .ok []
  | .response status page =>
    if is2xx status then .ok (searchItems name urljoin page.containers)
    else .error "HTTPStatusError"

/-- Result of `select_one(chapter_url_selector)` inside one
`chapter_container_selector` match. -/
structure ChapterContainer where
  urlEl : Option Element := none
  deriving DecidableEq

/-- A parsed details page: the three optional `safe_get` results (author
text, description text, cover `src` attribute) and the chapter containers
in document order. -/
structure DetailsPage where
  author : Option String := none
  description : Option String := none
  cover : Option String := none
  chapterContainers : List ChapterContainer := []
  deriving DecidableEq

/-- The `src` attribute of the chapter URL element, when the element exists
and has that attribute (lines 135-137). -/
def chapterSrc (c : ChapterContainer) : Option String :=
  c.urlEl.bind fun e => e.attrs.lookup "src"

/-- Chapter loop of `CustomSource.get_details`, lines 134-139:
`enumerate(chapter_containers, 1)` with containers lacking a `src` skipped
but still counted. -/
def chaptersGo (i : Nat) : List ChapterContainer → List Chapter
  | [] => []
  | c :: cs =>
    match chapterSrc c with
    | some src => { title := "Chapter " ++ toString i, url := src } :: chaptersGo (i + 1) cs
    | none => chaptersGo (i + 1) cs

/-- Chapters scraped from a details page (counter starts at 1). -/
def chaptersOf (cs : List ChapterContainer) : List Chapter := chaptersGo 1 cs

/-- `CustomSource.get_details`, lines 97-149.  On a transport error it
returns `None`; on a non-2xx response `raise_for_status` raises an
uncaught `httpx.HTTPStatusError`; on success it always returns an
`Audiobook`, even when the chapter list is empty. -/
def CustomSource.get_details (item : AudioItem) (fetch : FetchResult DetailsPage) :
    Except String (Option Audiobook) :=
  match fetch with
  | .requestError => .ok none
  | .response status page =>
    if is2xx status then
      .ok (some
        { title := item.title
          source_name := item.source_name
          url := item.url
          author := page.author
          description := page.description
          cover_image_url := page.cover
          chapters := chaptersOf page.chapterContainers })
    else .error "HTTPStatusError"

/-! ## Archive source (`rymflux/core/sources.py`, `ArchiveSource`) -/

/-- One entry of the metadata document's `files` array: `.get("name", "")`
and `.get("title")`. -/
structure FileInfo where
  name : Option String := none
  ftitle : Option String := none
  deriving DecidableEq

/-- The metadata JSON document: the `files` array and the
`metadata.title` / `metadata.creator` / `metadata.description` fields
(`none` when absent). -/
structure ArchiveMetadata where
  files : List FileInfo := []
  mtitle : Option String := none
  creator : Option String := none
  mdescription : Option String := none
  deriving DecidableEq

/-- Filter of line 209: keep a file iff its name ends in `.mp3` or `.ogg`
and contains neither `64kb` nor `128kb`. -/
def keepFile (file_name : String) : Bool :=
  (pyEndsWith file_name ".mp3" || pyEndsWith file_name ".ogg")
    && !pyContains file_name "64kb" && !pyContains file_name "128kb"

/-- Chapter candidates built by the loop of lines 206-212, before sorting:
title is the file's own `title` if truthy else the filename's last path
segment, stripped; URL is the synthesized download URL. -/
def archiveChapters (identifier : String) (files : List FileInfo) : List Chapter :=
  files.filterMap fun fi =>
    let file_name := fi.name.getD ""
    if keepFile file_name then
      let chapter_title :=
        match fi.ftitle with
        | some t => if t = "" then String.mk (lastSegment file_name.data) else t
        | none => String.mk (lastSegment file_name.data)
      some { title := pyStrip chapter_title
             url := "https://archive.org/download/" ++ identifier ++ "/" ++ file_name }
    else none

/-- Stable insertion of a chapter into a title-sorted list. -/
def insertSorted (c : Chapter) : List Chapter → List Chapter
  | [] => [c]
  | d :: ds => if titleLe c.title d.title then c :: d :: ds else d :: insertSorted c ds

/-- `chapters.sort(key=lambda c: c.title)` (line 217).  Python `list.sort`
is a stable sort; any stable sort by the same key produces the same list,
so a stable insertion sort models it exactly. -/
def sortChapters (l : List Chapter) : List Chapter := l.foldr insertSorted []

/-- The identifier derived on line 195: `item.url.split('/')[-1].strip()`. -/
def identifierOf (item : AudioItem) : String :=
  pyStrip (String.mk (lastSegment item.url.data))

/-- `ArchiveSource.get_details`, lines 194-234.  `name` is the source's
`self.name`.  The whole fetch-and-build body sits in a `try` that catches
every exception (including `HTTPStatusError`) and returns `None`. -/
def ArchiveSource.get_details (name : String) (item : AudioItem)
    (fetch : FetchResult ArchiveMetadata) : Option Audiobook :=
  let identifier := identifierOf item
  if identifier = "" then none
  else
    match fetch with
    | .requestError => none
    | .response status doc =>
      if is2xx status then
        let chapters := archiveChapters identifier doc.files
        if chapters = [] then none
        else
          some
            { title := doc.mtitle.getD item.title
              source_name := name
              url := item.url
              author := some (doc.creator.getD "Unknown")
              description := some (doc.mdescription.getD "")
              cover_image_url := some ("https://archive.org/services/img/" ++ identifier)
              chapters := sortChapters chapters }
      else none

/-! ## Source registry (`rymflux/core/sources.py`, `get_source` /
`get_all_sources`)

A YAML source record is either not a dict at all, or a dict whose
`type` / `name` / `base_url` values are optional strings and whose `rules`
value is modelled by its key set (`none` = key absent; an empty key list =
an empty dict, which is falsy). -/

/-- One entry of the `sources` list in `sources.yaml`. -/
inductive SourceConfig where
  | notDict
  | dict (type : Option String) (name : Option String) (base_url : Option String)
      (rules : Option (List String))
  deriving DecidableEq

/-- Python truthiness of an optional string (`None` and `""` are falsy). -/
def truthyS : Option String → Bool
  | none => false
  | some s => !(s == "")

/-- Python truthiness of an optional dict modelled by its key set. -/
def truthyRules : Option (List String) → Bool
  | none => false
  | some keys => !keys.isEmpty

/-- A constructed source, carrying what its constructor stored. -/
inductive SourceKind where
  | archive (name : String) (base_url : String)
  | custom (name : String) (base_url : String) (ruleKeys : List String)
  deriving DecidableEq

/-- `CustomSource.__init__`, lines 54-58: raises `ValueError` when the
rules lack the `search` or `details` key.  (The source text of the message
contains quoted key names; the payload here is abbreviated.) -/
def CustomSource.init (name base_url : String) (ruleKeys : List String) :
    Except String SourceKind :=
  if !(ruleKeys.contains "search") || !(ruleKeys.contains "details") then
    .error "ValueError: CustomSource rules must include search and details"
  else .ok (.custom name base_url ruleKeys)

/-- `get_source`, lines 237-268.  Returns `ok none` for every dropped
(logged) record; the `custom` branch calls `CustomSource.__init__`, whose
`ValueError` it does not catch. -/
def get_source (source_config : SourceConfig) : Except String (Option SourceKind) :=
  match source_config with
  | .notDict => .ok none
  | .dict type name base_url rules =>
    if type == some "archive" then
      if !truthyS name then .ok none
      else .ok (some (.archive (name.getD "") (if truthyS base_url then base_url.getD "" else "")))
    else if !(truthyS type && truthyS name && truthyS base_url) then .ok none
    else if type == some "custom" then
      if !truthyRules rules then .ok none
      else (CustomSource.init (name.getD "") (base_url.getD "") (rules.getD [])).map some
    else if type == some "youtube" then .ok none
    else .ok none

/-- Accumulating loop of `get_all_sources`, lines 277-281: an exception
raised by `get_source` propagates and aborts the whole load. -/
def get_all_sourcesAux (acc : List SourceKind) :
    List SourceConfig → Except String (List SourceKind)
  | [] => .ok acc
  | config :: rest =>
    match get_source config with
    | .error e => .error e
    | .ok (some s) => get_all_sourcesAux (acc ++ [s]) rest
    | .ok none => get_all_sourcesAux acc rest

/-- `get_all_sources`, lines 270-283, applied to the already-loaded list of
configuration records. -/
def get_all_sources (source_configs : List SourceConfig) : Except String (List SourceKind) :=
  get_all_sourcesAux [] source_configs

/-- The source a record yields when `get_source` returns without raising
(`none` when the record is dropped or `get_source` raised). -/
def okSourceOf (source_config : SourceConfig) : Option SourceKind :=
  match get_source source_config with
  | .ok (some s) => some s
  | _ => none

/-! ## CLI aggregator with deadline (`rymflux/cli/main.py`,
`CLIApp._handle_search`, lines 72-85)

The fan-out is `asyncio.wait_for(asyncio.gather(*tasks,
return_exceptions=True), timeout=10.0)`.  A task's fate at the deadline is
one of: completed with a list, completed by raising, or still outstanding
(which is what makes `wait_for` raise `TimeoutError`).  On the timeout
path the code awaits `asyncio.gather(*tasks, ...)` a second time over the
same coroutine objects; in Python a coroutine can be awaited only once, so
every re-await (including those of coroutines that had already completed
with results) delivers `RuntimeError: cannot reuse already awaited
coroutine` as that slot's outcome. -/

/-- Fate of one source's `search` coroutine at the 10-second deadline. -/
inductive TaskOutcome where
  | completed (items : List AudioItem)
  | failed (msg : String)
  | outstanding
  deriving DecidableEq

/-- Whether a task is still outstanding when the deadline fires. -/
def TaskOutcome.isOutstanding : TaskOutcome → Bool
  | .outstanding => true
  | _ => false

/-- What the first `gather` returns for a task when no timeout fired. -/
def TaskOutcome.settled : TaskOutcome → Except String (List AudioItem)
  | .completed items => .ok items
  | .failed msg => .error msg
  | .outstanding => .error "unreachable"

/-- What the second `gather` over the same coroutine objects returns for a
task: every coroutine has already been awaited (run to completion or
cancelled), so each slot is a `RuntimeError`. -/
def TaskOutcome.reAwaited : TaskOutcome → Except String (List AudioItem)
  | _ => .error "RuntimeError: cannot reuse already awaited coroutine"

/-- Collection loop of lines 80-85: warn on exception entries, extend with
list entries. -/
def CLIApp.collectResults (results : List (Except String (List AudioItem))) :
    List AudioItem :=
  results.foldl collectStep []

/-- `CLIApp._handle_search` result assembly, lines 72-85. -/
def CLIApp.handle_search (outcomes : List TaskOutcome) : List AudioItem :=
  if outcomes.any TaskOutcome.isOutstanding then
    CLIApp.collectResults (outcomes.map TaskOutcome.reAwaited)
  else
    CLIApp.collectResults (outcomes.map TaskOutcome.settled)

/-- Stand-in URL resolver used in concrete instances; relative resolution
against the base URL is abstracted. -/
def trivialJoin (rel : String) : String := rel

/-! ## Helper lemmas -/

theorem charsLe_total : ∀ (a b : List Char), charsLe a b = true ∨ charsLe b a = true
  | [], _ => Or.inl rfl
  | _ :: _, [] => Or.inr rfl
  | x :: xs, y :: ys => by
    simp only [charsLe]
    rcases Nat.lt_trichotomy x.toNat y.toNat with h | h | h
    · left
      simp [h]
    · have hxy : ¬ x.toNat < y.toNat := by omega
      have hyx : ¬ y.toNat < x.toNat := by omega
      rcases charsLe_total xs ys with ih | ih
      · left
        simp [hxy, hyx, ih]
      · right
        simp [hxy, hyx, ih]
    · right
      have hxy : ¬ x.toNat < y.toNat := by omega
      simp [h, hxy]

theorem charsLe_trans :
    ∀ (a b c : List Char), charsLe a b = true → charsLe b c = true → charsLe a c = true
  | [], _, _, _, _ => rfl
  | _ :: _, [], _, h1, _ => by simp [charsLe] at h1
  | _ :: _, _ :: _, [], _, h2 => by simp [charsLe] at h2
  | x :: xs, y :: ys, z :: zs, h1, h2 => by
    simp only [charsLe] at h1 h2 ⊢
    rcases Nat.lt_trichotomy x.toNat y.toNat with hxy | hxy | hxy
    · rcases Nat.lt_trichotomy y.toNat z.toNat with hyz | hyz | hyz
      · have hxz : x.toNat < z.toNat := by omega
        simp [hxz]
      · have hxz : x.toNat < z.toNat := by omega
        simp [hxz]
      · have h1' : ¬ y.toNat < z.toNat := by omega
        simp [h1', hyz] at h2
    · rcases Nat.lt_trichotomy y.toNat z.toNat with hyz | hyz | hyz
      · have hxz : x.toNat < z.toNat := by omega
        simp [hxz]
      · have hxz : ¬ x.toNat < z.toNat := by omega
        have hzx : ¬ z.toNat < x.toNat := by omega
        have h1a : ¬ x.toNat < y.toNat := by omega
        have h1b : ¬ y.toNat < x.toNat := by omega
        have h2a : ¬ y.toNat < z.toNat := by omega
        have h2b : ¬ z.toNat < y.toNat := by omega
        simp only [if_neg h1a, if_neg h1b] at h1
        simp only [if_neg h2a, if_neg h2b] at h2
        simp only [if_neg hxz, if_neg hzx]
        exact charsLe_trans xs ys zs h1 h2
      · have h2a : ¬ y.toNat < z.toNat := by omega
        simp [h2a, hyz] at h2
    · have h1a : ¬ x.toNat < y.toNat := by omega
      simp [h1a, hxy] at h1

theorem titleLe_total (a b : String) : titleLe a b = true ∨ titleLe b a = true :=
  charsLe_total a.data b.data

theorem titleLe_trans {a b c : String} (h1 : titleLe a b = true) (h2 : titleLe b c = true) :
    titleLe a c = true :=
  charsLe_trans a.data b.data c.data h1 h2

theorem mem_insertSorted {x c : Chapter} :
    ∀ {l : List Chapter}, x ∈ insertSorted c l → x = c ∨ x ∈ l := by
  intro l
  induction l with
  | nil =>
    intro h
    simp [insertSorted] at h
    exact Or.inl h
  | cons d ds ih =>
    intro h
    simp only [insertSorted] at h
    by_cases hcd : titleLe c.title d.title
    · simp [hcd] at h
      rcases h with h | h | h
      · exact Or.inl h
      · exact Or.inr (by simp [h])
      · exact Or.inr (by simp [h])
    · simp [hcd] at h
      rcases h with h | h
      · exact Or.inr (by simp [h])
      · rcases ih h with h' | h'
        · exact Or.inl h'
        · exact Or.inr (by simp [h'])

theorem pairwise_insertSorted (c : Chapter) :
    ∀ {l : List Chapter}, l.Pairwise (fun a b => titleLe a.title b.title = true) →
      (insertSorted c l).Pairwise (fun a b => titleLe a.title b.title = true) := by
  intro l
  induction l with
  | nil =>
    intro _
    simp [insertSorted]
  | cons d ds ih =>
    intro h
    rw [List.pairwise_cons] at h
    obtain ⟨hd, hds⟩ := h
    simp only [insertSorted]
    by_cases hcd : titleLe c.title d.title
    · simp only [hcd, if_true]
      rw [List.pairwise_cons]
      refine ⟨?_, ?_⟩
      · intro x hx
        rcases List.mem_cons.mp hx with rfl | hx
        · exact hcd
        · exact titleLe_trans hcd (hd x hx)
      · rw [List.pairwise_cons]
        exact ⟨hd, hds⟩
    · simp only [hcd, if_false, Bool.false_eq_true, ite_false]
      rw [List.pairwise_cons]
      refine ⟨?_, ih hds⟩
      intro x hx
      rcases mem_insertSorted hx with rfl | hx
      · rcases titleLe_total x.title d.title with h' | h'
        · exact absurd h' hcd
        · exact h'
      · exact hd x hx

theorem sorted_sortChapters (l : List Chapter) :
    (sortChapters l).Pairwise (fun a b => titleLe a.title b.title = true) := by
  induction l with
  | nil => simp [sortChapters]
  | cons c cs ih => exact pairwise_insertSorted c ih

theorem length_insertSorted (c : Chapter) :
    ∀ (l : List Chapter), (insertSorted c l).length = l.length + 1 := by
  intro l
  induction l with
  | nil => rfl
  | cons d ds ih =>
    simp only [insertSorted]
    by_cases hcd : titleLe c.title d.title
    · simp [hcd]
    · simp [hcd, ih]

theorem length_sortChapters (l : List Chapter) : (sortChapters l).length = l.length := by
  induction l with
  | nil => rfl
  | cons c cs ih =>
    simp only [sortChapters, List.foldr_cons] at *
    rw [length_insertSorted, ih, List.length_cons]

theorem sortChapters_ne_nil {l : List Chapter} (h : l ≠ []) : sortChapters l ≠ [] := by
  intro hs
  apply h
  have := length_sortChapters l
  rw [hs] at this
  exact List.length_eq_zero.mp this.symm

theorem foldl_collectStep (outcomes : List (Except String (List AudioItem))) :
    ∀ acc, outcomes.foldl collectStep acc = acc ++ outcomes.foldl collectStep [] := by
  induction outcomes with
  | nil => intro acc; simp
  | cons r rs ih =>
    intro acc
    simp only [List.foldl_cons]
    rw [ih (collectStep acc r), ih (collectStep [] r)]
    cases r with
    | ok l => simp [collectStep, List.append_assoc]
    | error e => simp [collectStep]

theorem search_all_eq (outcomes : List (Except String (List AudioItem))) :
    SearchWorker.search_all outcomes = (outcomes.filterMap Except.toOption).flatten := by
  induction outcomes with
  | nil => rfl
  | cons r rs ih =>
    simp only [SearchWorker.search_all, List.foldl_cons] at *
    rw [foldl_collectStep rs (collectStep [] r), ih]
    cases r with
    | ok l => simp [collectStep, Except.toOption]
    | error e => simp [collectStep, Except.toOption]

theorem archive_get_details_chapters_spec {name : String} {item : AudioItem}
    {fetch : FetchResult ArchiveMetadata} {book : Audiobook}
    (h : ArchiveSource.get_details name item fetch = some book) :
    ∃ l, l ≠ [] ∧ book.chapters = sortChapters l := by
  unfold ArchiveSource.get_details at h
  by_cases hid : identifierOf item = ""
  · simp [hid] at h
  · simp only [hid, if_false, ite_false] at h
    cases fetch with
    | requestError => simp at h
    | response status doc =>
      by_cases hst : is2xx status = true
      · simp only [hst, if_true, ite_true] at h
        by_cases hch : archiveChapters (identifierOf item) doc.files = []
        · simp [hch] at h
        · simp only [hch, if_false, ite_false] at h
          refine ⟨archiveChapters (identifierOf item) doc.files, hch, ?_⟩
          cases h
          rfl
      · simp [hst] at h

theorem get_all_sourcesAux_ok :
    ∀ (source_configs : List SourceConfig),
      (∀ config ∈ source_configs, ∃ o, get_source config = .ok o) →
      ∀ acc, get_all_sourcesAux acc source_configs
        = .ok (acc ++ source_configs.filterMap okSourceOf) := by
  intro source_configs
  induction source_configs with
  | nil => intro _ acc; simp [get_all_sourcesAux]
  | cons config rest ih =>
    intro h acc
    obtain ⟨o, ho⟩ := h config (List.mem_cons_self config rest)
    have hrest : ∀ c ∈ rest, ∃ o, get_source c = .ok o := by
      intro c hc
      exact h c (List.mem_cons_of_mem config hc)
    cases o with
    | some s =>
      have hok : okSourceOf config = some s := by simp [okSourceOf, ho]
      show (match get_source config with
        | .error e => Except.error e
        | .ok (some s) => get_all_sourcesAux (acc ++ [s]) rest
        | .ok none => get_all_sourcesAux acc rest) = _
      rw [ho]
      show get_all_sourcesAux (acc ++ [s]) rest = _
      rw [ih hrest (acc ++ [s]), List.filterMap_cons, hok]
      simp
    | none =>
      have hok : okSourceOf config = none := by simp [okSourceOf, ho]
      show (match get_source config with
        | .error e => Except.error e
        | .ok (some s) => get_all_sourcesAux (acc ++ [s]) rest
        | .ok none => get_all_sourcesAux acc rest) = _
      rw [ho]
      show get_all_sourcesAux acc rest = _
      rw [ih hrest acc, List.filterMap_cons, hok]

/-! ## Claim theorems -/

/-- C1: for every list of sources and every query, if exactly one source's
`search` raises, `SearchWorker._search_all` returns the concatenation of
the other sources' result lists, grouped by source in registration order
with each source's internal order preserved.  `search_all` is a total
function, so it never raises. -/
theorem search_all_isolates_single_failure (pres posts : List (List AudioItem))
    (msg : String) :
    SearchWorker.search_all (pres.map Except.ok ++ Except.error msg :: posts.map Except.ok)
      = pres.flatten ++ posts.flatten := by
  rw [search_all_eq]
  rw [List.filterMap_append, List.filterMap_cons]
  have hcomp :
      (Except.toOption ∘ (Except.ok : List AudioItem → Except String (List AudioItem)))
        = some :=
    funext fun _ => rfl
  simp [Except.toOption, List.filterMap_map, hcomp]

/-- C2 counterexample: `CustomSource.get_details` on a successfully fetched
page with zero chapter containers returns an `Audiobook` whose chapter
sequence is empty, so not every `Audiobook` returned by a source's
`get_details` has a non-empty chapter sequence. -/
theorem custom_get_details_returns_book_without_chapters :
    CustomSource.get_details { title := "Book", source_name := "src1", url := "u" }
        (.response 200 {})
      = .ok (some { title := "Book", source_name := "src1", url := "u" })
    ∧ ({ title := "Book", source_name := "src1", url := "u" } : Audiobook).chapters = [] :=
  ⟨rfl, rfl⟩

/-- C2 amended: any `Audiobook` returned by the archive source's
`get_details` has a non-empty chapter sequence (zero surviving files yield
absence); the rule-driven source does not maintain this invariant. -/
theorem archive_get_details_chapters_nonempty (name : String) (item : AudioItem)
    (fetch : FetchResult ArchiveMetadata) (book : Audiobook)
    (h : ArchiveSource.get_details name item fetch = some book) :
    book.chapters ≠ [] := by
  obtain ⟨l, hl, hbc⟩ := archive_get_details_chapters_spec h
  rw [hbc]
  exact sortChapters_ne_nil hl

/-- Concrete item used by witness instances of the archive source. -/
def itemAbc : AudioItem :=
  { title := "T", source_name := "Arch", url := "https://archive.org/details/abc" }

/-- Concrete metadata document with a single surviving file. -/
def docOneFile : ArchiveMetadata := { files := [{ name := some "a.mp3" }] }

/-- The audiobook `ArchiveSource.get_details` builds from `docOneFile`. -/
def bookOneFile : Audiobook :=
  { title := "T", source_name := "Arch", url := "https://archive.org/details/abc",
    author := some "Unknown", description := some "",
    cover_image_url := some "https://archive.org/services/img/abc",
    chapters := [{ title := "a.mp3", url := "https://archive.org/download/abc/a.mp3" }] }

/-- C2 amended, witness at a concrete metadata document with one surviving
file. -/
theorem archive_get_details_chapters_nonempty_witness :
    ArchiveSource.get_details "Arch" itemAbc (.response 200 docOneFile) = some bookOneFile
    ∧ bookOneFile.chapters ≠ [] :=
  ⟨by decide,
   archive_get_details_chapters_nonempty "Arch" itemAbc (.response 200 docOneFile) bookOneFile
     (by decide)⟩

/-- C3 counterexample: on a non-2xx response, `raise_for_status` raises
`httpx.HTTPStatusError`, which the `except httpx.RequestError` clause does
not catch, so `CustomSource.search` propagates it instead of returning an
empty list. -/
theorem custom_search_raises_on_non2xx :
    CustomSource.search "src1" trivialJoin (.response 404 {}) = .error "HTTPStatusError" :=
  rfl

/-- C3 amended: `CustomSource.search` catches transport errors
(`httpx.RequestError`: DNS/connect/timeout) and returns an empty list, and
returns an empty list when the container selector matches nothing; only a
non-2xx response escapes as an exception. -/
theorem custom_search_soft_failure_paths (name : String) (urljoin : String → String)
    (page : SearchPage) (hempty : page.containers = []) :
    CustomSource.search name urljoin .requestError = .ok []
    ∧ CustomSource.search name urljoin (.response 200 page) = .ok [] := by
  constructor
  · rfl
  · simp [CustomSource.search, is2xx, searchItems, hempty]

/-- C3 amended, witness at a concrete empty page. -/
theorem custom_search_soft_failure_paths_witness :
    ({} : SearchPage).containers = []
    ∧ (CustomSource.search "src1" trivialJoin .requestError = .ok []
        ∧ CustomSource.search "src1" trivialJoin (.response 200 {}) = .ok []) :=
  ⟨rfl, custom_search_soft_failure_paths "src1" trivialJoin {} rfl⟩

/-- A custom record whose (non-empty) rules lack the `details` sub-key. -/
def cfgBadCustom : SourceConfig :=
  .dict (some "custom") (some "S") (some "http://b") (some ["search"])

/-- A valid archive record. -/
def cfgArchiveA : SourceConfig := .dict (some "archive") (some "A") none none

/-- C4 counterexample: a custom record with non-empty rules missing the
`details` sub-key makes `CustomSource.__init__` raise `ValueError`, which
`get_source` does not catch, so `get_all_sources` aborts and the valid
record after it is never loaded. -/
theorem get_all_sources_aborts_on_bad_rules :
    get_all_sources [cfgBadCustom, cfgArchiveA]
      = .error "ValueError: CustomSource rules must include search and details" :=
  rfl

/-- C4 amended: `get_all_sources` returns exactly one source per valid
record and drops each non-dict, missing-field, missing/empty-rules or
unknown-type record without raising; but a custom record whose non-empty
rules lack the `search` or `details` sub-key raises a `ValueError` that
aborts the whole load (the hypothesis excludes exactly those records). -/
theorem get_all_sources_drops_invalid (source_configs : List SourceConfig)
    (h : ∀ config ∈ source_configs, ∃ o, get_source config = .ok o) :
    get_all_sources source_configs = .ok (source_configs.filterMap okSourceOf) := by
  rw [get_all_sources, get_all_sourcesAux_ok source_configs h []]
  simp

/-- Mixed configuration list: valid archive, non-dict, unknown type, valid
custom, custom without rules, custom with empty rules, archive without a
name, youtube. -/
def cfgMixed : List SourceConfig :=
  [cfgArchiveA,
   .notDict,
   .dict (some "bogus") (some "N") (some "http://b") none,
   .dict (some "custom") (some "C") (some "http://c") (some ["search", "details"]),
   .dict (some "custom") (some "D") (some "http://d") none,
   .dict (some "custom") (some "E") (some "http://e") (some []),
   .dict (some "archive") none none none,
   .dict (some "youtube") (some "Y") (some "http://y") none]

/-- C4 amended, witness: over `cfgMixed` the loader returns exactly the two
sources built from the two valid records, in order. -/
theorem get_all_sources_drops_invalid_witness :
    get_all_sources cfgMixed
      = .ok [.archive "A" "", .custom "C" "http://c" ["search", "details"]] := by
  rw [get_all_sources_drops_invalid cfgMixed ?_]
  · rfl
  · intro config hc
    fin_cases hc <;> exact ⟨_, rfl⟩

/-- C5: a file whose name contains `64kb` or `128kb` or does not end in
`.mp3`/`.ogg` never yields a chapter — removing such a file anywhere in
the `files` list leaves the chapter candidates unchanged — and the
chapters of any `Audiobook` the archive source returns are sorted
ascending by title (code-point lexicographic). -/
theorem archive_filter_excludes_and_sorts (identifier : String)
    (fs gs : List FileInfo) (f : FileInfo) (hbad : keepFile (f.name.getD "") = false)
    (name : String) (item : AudioItem) (fetch : FetchResult ArchiveMetadata)
    (book : Audiobook) (hbook : ArchiveSource.get_details name item fetch = some book) :
    archiveChapters identifier (fs ++ f :: gs) = archiveChapters identifier (fs ++ gs)
    ∧ book.chapters.Pairwise (fun a b => titleLe a.title b.title = true) := by
  constructor
  · simp only [archiveChapters, List.filterMap_append, List.filterMap_cons, hbad]
    simp
  · obtain ⟨l, _, hbc⟩ := archive_get_details_chapters_spec hbook
    rw [hbc]
    exact sorted_sortChapters l

/-- Metadata document whose raw file order is not title order and which
contains files the quality filter must drop. -/
def docUnsorted : ArchiveMetadata :=
  { files := [{ name := some "b.mp3" }, { name := some "x64kb.mp3" }, { name := some "a.mp3" }] }

/-- The audiobook `ArchiveSource.get_details` builds from `docUnsorted`:
the `64kb` file is gone and the chapters are title-sorted. -/
def bookSorted : Audiobook :=
  { title := "T", source_name := "Arch", url := "https://archive.org/details/abc",
    author := some "Unknown", description := some "",
    cover_image_url := some "https://archive.org/services/img/abc",
    chapters := [{ title := "a.mp3", url := "https://archive.org/download/abc/a.mp3" },
                 { title := "b.mp3", url := "https://archive.org/download/abc/b.mp3" }] }

/-- C5 witness at a concrete file list and metadata document. -/
theorem archive_filter_excludes_and_sorts_witness :
    keepFile (({ name := some "x64kb.mp3" } : FileInfo).name.getD "") = false
    ∧ ArchiveSource.get_details "Arch" itemAbc (.response 200 docUnsorted) = some bookSorted
    ∧ (archiveChapters "abc" ([{ name := some "b.mp3" }] ++ { name := some "x64kb.mp3" } :: [{ name := some "a.mp3" }])
         = archiveChapters "abc" ([{ name := some "b.mp3" }] ++ [{ name := some "a.mp3" }])
       ∧ bookSorted.chapters.Pairwise (fun a b => titleLe a.title b.title = true)) :=
  ⟨by decide, by decide,
   archive_filter_excludes_and_sorts "abc" [{ name := some "b.mp3" }] [{ name := some "a.mp3" }]
     { name := some "x64kb.mp3" } (by decide) "Arch" itemAbc (.response 200 docUnsorted)
     bookSorted (by decide)⟩

/-- C6: with a non-empty derived identifier and a successfully fetched
metadata document, the archive source's `get_details` returns `none` iff
no file survives the chapter filter, and returns an `Audiobook` whenever
at least one chapter survives. -/
theorem archive_get_details_none_iff (name : String) (item : AudioItem)
    (status : Nat) (doc : ArchiveMetadata)
    (hid : identifierOf item ≠ "") (hst : is2xx status = true) :
    (ArchiveSource.get_details name item (.response status doc) = none
      ↔ archiveChapters (identifierOf item) doc.files = [])
    ∧ (archiveChapters (identifierOf item) doc.files ≠ [] →
        ∃ book, ArchiveSource.get_details name item (.response status doc) = some book) := by
  unfold ArchiveSource.get_details
  simp only [hid, ite_false, if_false, hst, ite_true, if_true]
  by_cases hch : archiveChapters (identifierOf item) doc.files = []
  · simp [hch]
  · simp [hch]

/-- C6 witness at a concrete item and metadata document with one surviving
file. -/
theorem archive_get_details_none_iff_witness :
    identifierOf itemAbc ≠ "" ∧ is2xx 200 = true
    ∧ ((ArchiveSource.get_details "Arch" itemAbc (.response 200 docOneFile) = none
          ↔ archiveChapters (identifierOf itemAbc) docOneFile.files = [])
       ∧ (archiveChapters (identifierOf itemAbc) docOneFile.files ≠ [] →
           ∃ book, ArchiveSource.get_details "Arch" itemAbc (.response 200 docOneFile) = some book)) :=
  ⟨by decide, by decide,
   archive_get_details_none_iff "Arch" itemAbc 200 docOneFile (by decide) (by decide)⟩

/-- Scraped audiobook used in the merge-stage instances. -/
def bookScraped : Audiobook :=
  { title := "T", source_name := "S", url := "U",
    author := some "Scraped Author", description := some "Scraped Desc",
    cover_image_url := some "scraped.jpg", chapters := [{ title := "c1", url := "u1" }] }

/-- External lookup whose three enrichable fields are all present in the
claim's sense — the authors list is non-empty and the description and
thumbnail keys are present — but whose author join and thumbnail are empty
strings. -/
def volBlank : VolumeInfo :=
  { authors := [""], description := some "External Desc", thumbnail := some "" }

/-- C7 counterexample: with `volBlank` the merged audiobook keeps the
scraped author and cover (Python `or` falls back on the empty joined
string and the empty thumbnail), so its author and cover do not equal the
external values even though the authors list is non-empty and all three
fields are present. -/
theorem merge_precedence_fails_on_blank_externals :
    volBlank.authors ≠ []
    ∧ volBlank.description.isSome = true
    ∧ volBlank.thumbnail.isSome = true
    ∧ DetailsWorker.fetch_and_merge (some bookScraped) (some volBlank)
        = some { bookScraped with description := some "External Desc" }
    ∧ ({ bookScraped with description := some "External Desc" } : Audiobook).author
        ≠ some (String.intercalate ", " volBlank.authors)
    ∧ ({ bookScraped with description := some "External Desc" } : Audiobook).cover_image_url
        ≠ volBlank.thumbnail := by
  refine ⟨by decide, by decide, by decide, ?_, by decide, by decide⟩
  decide

/-- C7 amended: when the scrape succeeds and the external lookup succeeds
with a non-empty joined authors string, a present description field and a
present non-empty thumbnail URL, the merged audiobook's author,
description and cover all equal the external values; when the external
lookup failed or is absent, the merged audiobook equals the scraped one
unchanged. -/
theorem merge_precedence (book : Audiobook) (g : VolumeInfo) (d t : String)
    (hj : String.intercalate ", " g.authors ≠ "")
    (hd : g.description = some d)
    (ht : g.thumbnail = some t) (htne : t ≠ "") :
    DetailsWorker.fetch_and_merge (some book) (some g)
      = some { book with
                 author := some (String.intercalate ", " g.authors),
                 description := some d, cover_image_url := some t }
    ∧ DetailsWorker.fetch_and_merge (some book) none = some book := by
  constructor
  · simp [DetailsWorker.fetch_and_merge, pyOrOpt, hj, hd, ht, htne]
  · rfl

/-- External lookup with all three enrichable fields present and
non-degenerate. -/
def volFull : VolumeInfo :=
  { authors := ["A1", "A2"], description := some "External Desc",
    thumbnail := some "thumb.jpg" }

/-- C7 amended, witness at `bookScraped` and `volFull`. -/
theorem merge_precedence_witness :
    String.intercalate ", " volFull.authors ≠ ""
    ∧ volFull.description = some "External Desc"
    ∧ volFull.thumbnail = some "thumb.jpg"
    ∧ (DetailsWorker.fetch_and_merge (some bookScraped) (some volFull)
        = some { bookScraped with
                   author := some (String.intercalate ", " volFull.authors),
                   description := some "External Desc", cover_image_url := some "thumb.jpg" }
       ∧ DetailsWorker.fetch_and_merge (some bookScraped) none = some bookScraped) :=
  ⟨by decide, by decide, by decide,
   merge_precedence bookScraped volFull "External Desc" "thumb.jpg"
     (by decide) (by decide) (by decide) (by decide)⟩

/-- C8 (code bug): when the 10-second deadline fires with one source
completed and one still outstanding, `CLIApp._handle_search` re-awaits
every coroutine; each re-await delivers `RuntimeError` (a coroutine can be
awaited only once), so the completed source's results are dropped and the
collected result list is empty, not the completed source's list. -/
theorem handle_search_timeout_drops_completed_results :
    CLIApp.handle_search
        [.completed [{ title := "Book", source_name := "src1", url := "http://u" }],
         .outstanding]
      = [] :=
  rfl

/-- C9: the rule-driven `get_details` numbers chapters by the 1-based
enumeration index over all chapter containers, including skipped ones:
with three containers whose middle one has no element with a `src`
attribute, exactly two chapters come back, titled `Chapter 1` and
`Chapter 3`. -/
theorem custom_chapter_numbering (c1 c2 c3 : ChapterContainer) (s1 s3 : String)
    (h1 : chapterSrc c1 = some s1) (h2 : chapterSrc c2 = none)
    (h3 : chapterSrc c3 = some s3) :
    chaptersOf [c1, c2, c3]
      = [{ title := "Chapter 1", url := s1 }, { title := "Chapter 3", url := s3 }] := by
  simp only [chaptersOf, chaptersGo, h1, h2, h3]
  rfl

/-- C9 witness at concrete containers. -/
theorem custom_chapter_numbering_witness :
    chapterSrc { urlEl := some { attrs := [("src", "u1")] } } = some "u1"
    ∧ chapterSrc { urlEl := some { attrs := [("href", "x")] } } = none
    ∧ chapterSrc { urlEl := some { attrs := [("src", "u3")] } } = some "u3"
    ∧ chaptersOf [{ urlEl := some { attrs := [("src", "u1")] } },
                  { urlEl := some { attrs := [("href", "x")] } },
                  { urlEl := some { attrs := [("src", "u3")] } }]
        = [{ title := "Chapter 1", url := "u1" }, { title := "Chapter 3", url := "u3" }] :=
  ⟨rfl, rfl, rfl,
   custom_chapter_numbering _ _ _ "u1" "u3" rfl rfl rfl⟩

/-- C10: whatever the external lookup's outcome, the merge changes only the
author, description and cover fields — the merged audiobook's title,
source name, URL and chapter sequence are those of the scraped one. -/
theorem merge_preserves_identity_and_chapters (book : Audiobook) (gm : Option VolumeInfo) :
    (DetailsWorker.fetch_and_merge (some book) gm).map Audiobook.title = some book.title
    ∧ (DetailsWorker.fetch_and_merge (some book) gm).map Audiobook.source_name
        = some book.source_name
    ∧ (DetailsWorker.fetch_and_merge (some book) gm).map Audiobook.url = some book.url
    ∧ (DetailsWorker.fetch_and_merge (some book) gm).map Audiobook.chapters
        = some book.chapters := by
  cases gm with
  | none => simp [DetailsWorker.fetch_and_merge]
  | some g => simp [DetailsWorker.fetch_and_merge]

end Rymflux
